import Mathlib

/-!
Verification development for the WA_MACE_FT repository (two Python scripts:
`scripts/caco3_MD.py`, an ASE/MACE molecular-dynamics run, and
`scripts/model_evaulation.py`, a batch model-evaluation sweep).

The scripts are shallowly embedded below: pure computations over exact
rationals/integers stand in for the Python/numpy floating-point arithmetic,
stateful parts (sys.argv, the trajectory file) become explicit state passing,
and fallible parts return `Except`/`Option`.  Where a behaviour lives in the
external ASE/MACE libraries rather than in this repository, the definition is
modelled from the specification document and says so in its doc comment.
-/

namespace WAMaceFT

/-! ## Dynamics driver (caco3_MD.py, MD loop)

The script attaches `printenergy` at interval 1000 and `traj.write` at
interval 10 to the `Bussi` dynamics object and then calls `dyn.run(250000)`.
The step loop itself lives in the external ASE library; per the spec's
Dynamics Driver design, for each step s = 1..N every attached periodic
callback whose interval divides s is invoked. -/

/-- Terminal/driver states of the Dynamics Driver per the spec
(`{Initialized, Running, Completed, Failed}`). -/
inductive DriverState where
  | Initialized
  | Running
  | Completed
  | Failed
  deriving DecidableEq, Repr

/-- Result of a driver run: the final step index, the terminal state, and how
many times the diagnostics reporter and the trajectory recorder fired
during the run (the explicit pre-run `printenergy()` call is not counted
here; see `scriptDiagnosticsEmissions`). -/
structure RunResult where
  finalStep : Nat
  state : DriverState
  reporterCalls : Nat
  recorderCalls : Nat
  deriving DecidableEq, Repr

/-- Modelled from the spec: the Dynamics Driver's step loop (the concrete
loop lives in the external `ase.md` library, not in this repository).
`stepCounts d t s` counts, over steps 1..s, how often a callback with
interval `d` (diagnostics) and one with interval `t` (trajectory) fire:
a periodic callback fires at step `s` exactly when its interval divides `s`. -/
def stepCounts (d t : Nat) : Nat → Nat × Nat
  | 0 => (0, 0)
  | s + 1 =>
    let (r, w) := stepCounts d t s
    ((if (s + 1) % d == 0 then r + 1 else r),
     (if (s + 1) % t == 0 then w + 1 else w))

/-- Modelled from the spec: a successful run of the Dynamics Driver for `N`
steps with diagnostics interval `d` and trajectory interval `t`; it completes
at step `N` having invoked each callback once per step its interval divides. -/
def driverRun (N d t : Nat) : RunResult :=
  let (r, w) := stepCounts d t N
  { finalStep := N, state := .Completed, reporterCalls := r, recorderCalls := w }

/-- The script's total number of diagnostics lines: one explicit pre-run
`printenergy()` call (line 64 of `caco3_MD.py`) plus the in-run callback
invocations. -/
def scriptDiagnosticsEmissions (N d t : Nat) : Nat :=
  1 + (driverRun N d t).reporterCalls

/-- The intervals and step count hardcoded in `caco3_MD.py`:
`dyn.attach(printenergy, interval = 1000)`, `dyn.attach(traj.write,
interval = 10)`, `n_steps = 250000`. -/
def caco3Run : RunResult := driverRun 250000 1000 10

theorem stepCounts_fst (d t : Nat) :
    ∀ N, (stepCounts d t N).1 = N / d := by
  intro N
  induction N with
  | zero => simp [stepCounts]
  | succ n ih =>
    rw [Nat.succ_div]
    simp only [stepCounts]
    rcases h : stepCounts d t n with ⟨r, w⟩
    simp only [h] at ih
    by_cases hdvd : d ∣ n + 1
    · have hmod : (n + 1) % d = 0 := Nat.mod_eq_zero_of_dvd hdvd
      simp [hmod, hdvd, ih]
    · have hmod : (n + 1) % d ≠ 0 := fun hc => hdvd (Nat.dvd_of_mod_eq_zero hc)
      simp [hmod, hdvd, ih]

theorem stepCounts_snd (d t : Nat) :
    ∀ N, (stepCounts d t N).2 = N / t := by
  intro N
  induction N with
  | zero => simp [stepCounts]
  | succ n ih =>
    rw [Nat.succ_div]
    simp only [stepCounts]
    rcases h : stepCounts d t n with ⟨r, w⟩
    simp only [h] at ih
    by_cases hdvd : t ∣ n + 1
    · have hmod : (n + 1) % t = 0 := Nat.mod_eq_zero_of_dvd hdvd
      simp [hmod, hdvd, ih]
    · have hmod : (n + 1) % t ≠ 0 := fun hc => hdvd (Nat.dvd_of_mod_eq_zero hc)
      simp [hmod, hdvd, ih]

theorem scriptDiagnosticsEmissions_def (N d t : Nat) :
    scriptDiagnosticsEmissions N d t = 1 + (driverRun N d t).reporterCalls := rfl

/-- C1: for every successful run of the MD driver with positive step count
`N` and callback intervals `d` (diagnostics) and `t` (trajectory) with
`d ≤ N` and `t ≤ N`, the diagnostics reporter fires exactly `⌊N / d⌋` times
and the trajectory recorder exactly `⌊N / t⌋` times during the run, the
explicit pre-run reporter call not counted; in particular for the
hardcoded run (`N = 250000`, `d = 1000`, `t = 10`) there are 250 in-run
diagnostics emissions and 25000 trajectory records, and the run completes
at step `N`. -/
theorem driverRun_callback_counts (N d t : Nat) (hN : 0 < N) (hd : 0 < d)
    (ht : 0 < t) (hdN : d ≤ N) (htN : t ≤ N) :
    (driverRun N d t).reporterCalls = N / d ∧
    (driverRun N d t).recorderCalls = N / t ∧
    (driverRun N d t).finalStep = N ∧
    (driverRun N d t).state = .Completed ∧
    caco3Run.reporterCalls = 250 ∧
    caco3Run.recorderCalls = 25000 ∧
    scriptDiagnosticsEmissions 250000 1000 10 = 1 + 250 := by
  have h1 : ∀ N' d' t' : Nat, (driverRun N' d' t').reporterCalls = N' / d' := by
    intro N' d' t'
    simp only [driverRun]
    rcases h : stepCounts d' t' N' with ⟨r, w⟩
    have := stepCounts_fst d' t' N'
    simp only [h] at this
    simpa using this
  have h2 : ∀ N' d' t' : Nat, (driverRun N' d' t').recorderCalls = N' / t' := by
    intro N' d' t'
    simp only [driverRun]
    rcases h : stepCounts d' t' N' with ⟨r, w⟩
    have := stepCounts_snd d' t' N'
    simp only [h] at this
    simpa using this
  refine ⟨h1 N d t, h2 N d t, ?_, ?_, ?_, ?_, ?_⟩
  · simp only [driverRun]
  · simp only [driverRun]
  · rw [show caco3Run = driverRun 250000 1000 10 from rfl, h1]
  · rw [show caco3Run = driverRun 250000 1000 10 from rfl, h2]
  · rw [scriptDiagnosticsEmissions_def, h1]

/-- Witness for C1 at a concrete small run: `N = 6`, `d = 2`, `t = 3`. -/
theorem driverRun_callback_counts_witness :
    (0 < 6 ∧ 0 < 2 ∧ 0 < 3 ∧ 2 ≤ 6 ∧ 3 ≤ 6) ∧
    ((driverRun 6 2 3).reporterCalls = 6 / 2 ∧
     (driverRun 6 2 3).recorderCalls = 6 / 3 ∧
     (driverRun 6 2 3).finalStep = 6 ∧
     (driverRun 6 2 3).state = .Completed ∧
     caco3Run.reporterCalls = 250 ∧
     caco3Run.recorderCalls = 25000 ∧
     scriptDiagnosticsEmissions 250000 1000 10 = 1 + 250) :=
  ⟨⟨by decide, by decide, by decide, by decide, by decide⟩,
   driverRun_callback_counts 6 2 3 (by decide) (by decide) (by decide)
     (by decide) (by decide)⟩

/-! ## Velocity initializer (caco3_MD.py, lines 43-54)

`remove_COM_velocity(atoms)` reads the momenta array, sums it along axis 0,
sums the masses, divides to get the centre-of-mass velocity, and writes back
`momenta - com_velocity * masses[:, np.newaxis]`.  The numpy floats are
embedded as exact rationals; a 3-vector is a function `Fin 3 → ℚ`. -/

/-- One particle of the ASE `Atoms` object: its mass and momentum vector. -/
structure Particle where
  mass : ℚ
  momentum : Fin 3 → ℚ

/-- `momenta.sum(axis=0)` at coordinate `i`. -/
def totalMomentum (atoms : List Particle) (i : Fin 3) : ℚ :=
  (atoms.map (fun p => p.momentum i)).sum

/-- `atoms.get_masses().sum()`. -/
def totalMass (atoms : List Particle) : ℚ :=
  (atoms.map (fun p => p.mass)).sum

/-- `remove_COM_velocity` from `caco3_MD.py`: subtracts
`com_velocity * masses[:, np.newaxis]` from the momenta, where
`com_velocity = total_momentum / total_mass`.  No validation is performed:
with zero total mass the Python code computes a division by zero (numpy
yields NaN/inf values with a warning; here Lean's `x / 0 = 0` convention
stands in for that junk value — the claims below only depend on the
division being well-defined, i.e. `totalMass ≠ 0`, or on the absence of
any raised error). -/
def remove_COM_velocity (atoms : List Particle) : List Particle :=
  atoms.map (fun p =>
    { p with momentum := fun i =>
        p.momentum i - (totalMomentum atoms i / totalMass atoms) * p.mass })

theorem totalMomentum_def (atoms : List Particle) (i : Fin 3) :
    totalMomentum atoms i = (atoms.map (fun p => p.momentum i)).sum := rfl

theorem totalMass_def (atoms : List Particle) :
    totalMass atoms = (atoms.map (fun p => p.mass)).sum := rfl

theorem remove_COM_velocity_def (atoms : List Particle) :
    remove_COM_velocity atoms = atoms.map (fun p =>
      { p with momentum := fun i =>
          p.momentum i - (totalMomentum atoms i / totalMass atoms) * p.mass }) := rfl

theorem sum_map_sub_smul (l : List Particle) (c : ℚ) (f : Particle → ℚ) :
    (l.map (fun p => f p - c * p.mass)).sum
      = (l.map f).sum - c * (l.map (fun p => p.mass)).sum := by
  induction l with
  | nil => simp
  | cons a tl ih =>
    simp only [List.map_cons, List.sum_cons, ih]
    ring

/-- C2: for every non-empty particle system with positive total mass, after
`remove_COM_velocity` the mass-weighted sum of velocities — the total
momentum `Σ mᵢ vᵢ` — is zero in every coordinate (exact arithmetic). -/
theorem remove_COM_velocity_zeroes_momentum (atoms : List Particle)
    (hne : atoms ≠ []) (hM : 0 < totalMass atoms) :
    ∀ i : Fin 3, totalMomentum (remove_COM_velocity atoms) i = 0 := by
  intro i
  have hM0 : totalMass atoms ≠ 0 := ne_of_gt hM
  rw [totalMomentum_def, remove_COM_velocity_def, List.map_map]
  have heq : ((fun p => p.momentum i) ∘ fun p : Particle =>
      { p with momentum := fun j =>
          p.momentum j - (totalMomentum atoms j / totalMass atoms) * p.mass })
      = fun p : Particle =>
          p.momentum i - (totalMomentum atoms i / totalMass atoms) * p.mass := rfl
  rw [heq, sum_map_sub_smul, ← totalMomentum_def, ← totalMass_def,
    div_mul_cancel₀ _ hM0, sub_self]

/-- Witness for C2: a two-particle system with masses 1 and 3 and unequal
momenta has zero total momentum after `remove_COM_velocity`. -/
theorem remove_COM_velocity_zeroes_momentum_witness :
    (([⟨1, fun _ => 1⟩, ⟨3, fun _ => 2⟩] : List Particle) ≠ []
      ∧ 0 < totalMass [⟨1, fun _ => 1⟩, ⟨3, fun _ => 2⟩])
    ∧ ∀ i : Fin 3,
        totalMomentum (remove_COM_velocity
          [⟨1, fun _ => 1⟩, ⟨3, fun _ => 2⟩]) i = 0 :=
  ⟨⟨by simp, by norm_num [totalMass]⟩,
   remove_COM_velocity_zeroes_momentum _ (by simp) (by norm_num [totalMass])⟩

/-! ## Initializer error behaviour (caco3_MD.py, lines 52-54) -/

/-- The error taxonomy named by the spec for the MD workflow. -/
inductive MDError where
  | InvalidConfiguration
  | IOError
  deriving DecidableEq, Repr

/-- The script's velocity initialization (lines 52-54 of `caco3_MD.py`):
`MaxwellBoltzmannDistribution(CaCO3, temperature_K=T_init)` — an external
ASE routine, passed in here as the oracle `mb` — followed by
`remove_COM_velocity(CaCO3)`.  The codomain is `Except MDError` so that a
raised error could be recorded; the source performs no validation and raises
nothing (numpy signals division by zero with a warning and NaN values, not
an exception), so every path returns `.ok`. -/
def velocityInit (T : ℚ) (atoms : List Particle)
    (mb : ℚ → List Particle → List Particle) : Except MDError (List Particle) :=
  .ok (remove_COM_velocity (mb T atoms))

/-- Counterexample to C3: at target temperature `-5 ≤ 0` and the empty
system (zero particles, zero total mass), the initializer does not fail with
`InvalidConfiguration`: it proceeds silently and returns the (empty) system. -/
theorem velocityInit_no_validation_cex :
    velocityInit (-5) [] (fun _ a => a) = .ok ([] : List Particle) ∧
    velocityInit (-5) [] (fun _ a => a) ≠ .error .InvalidConfiguration := by
  refine ⟨rfl, ?_⟩
  intro h
  simp [velocityInit, remove_COM_velocity] at h

/-- C3 as amended: the initializer performs no validation at all — for every
target temperature (including `T ≤ 0`) and every system (including zero
particles or zero total mass) it returns `.ok` and never signals
`InvalidConfiguration`; a non-positive temperature is handed unchecked to
the external Maxwell–Boltzmann routine and a zero total mass reaches the
division in `remove_COM_velocity` as a division by zero. -/
theorem velocityInit_never_errors (T : ℚ) (atoms : List Particle)
    (mb : ℚ → List Particle → List Particle) :
    velocityInit T atoms mb = .ok (remove_COM_velocity (mb T atoms)) ∧
    ∀ e : MDError, velocityInit T atoms mb ≠ .error e := by
  refine ⟨rfl, ?_⟩
  intro e h
  simp [velocityInit] at h

/-! ## Trajectory resource handling (caco3_MD.py, lines 62-65) -/

/-- Observable events of the MD script's trajectory-file handling. -/
inductive ScriptEvent where
  /-- `traj = Trajectory(path, 'w', CaCO3)` (line 62): the file handle is
  acquired by the constructor. -/
  | openTraj
  /-- `dyn.attach(traj.write, interval = 10)` (line 63). -/
  | attachTraj
  /-- the explicit `printenergy()` call (line 64). -/
  | preRunReport
  /-- `dyn.run(n_steps)` (line 65) returned normally. -/
  | runCompleted
  /-- `dyn.run(n_steps)` raised during a step. -/
  | runRaised
  /-- an explicit `traj.close()` (or `with Trajectory(...)` scope exit) —
  the script never issues one. -/
  | closeTraj
  deriving DecidableEq, Repr

/-- The event trace of the tail of `caco3_MD.py` (lines 62-65) as a function
of whether the run raises: the trajectory file is opened by the constructor
with no `with` block and no `try/finally`, and no close call appears on
either exit path. -/
def mdScriptTrace (runRaises : Bool) : List ScriptEvent :=
  [.openTraj, .attachTraj, .preRunReport]
    ++ (if runRaises then [.runRaised] else [.runCompleted])

/-- Counterexample to C4: on the abnormal-termination path the script opens
the trajectory file but never closes it — there is no scoped acquisition
with guaranteed release. -/
theorem mdScriptTrace_no_close_cex :
    ScriptEvent.openTraj ∈ mdScriptTrace true ∧
    ScriptEvent.closeTraj ∉ mdScriptTrace true := by
  decide

/-- C4 as amended: on every exit path — normal completion and abnormal
termination alike — the script acquires the trajectory-file handle at
construction and never explicitly closes (or scope-releases) it; the handle
is released only implicitly at process exit. -/
theorem mdScriptTrace_never_closes (runRaises : Bool) :
    ScriptEvent.openTraj ∈ mdScriptTrace runRaises ∧
    ScriptEvent.closeTraj ∉ mdScriptTrace runRaises := by
  cases runRaises <;> decide

/-! ## Diagnostics reporter (caco3_MD.py, lines 34-40) -/

/-- The quantities carried by one `printenergy` output line: the four
energy/temperature values and the elapsed minutes/seconds. -/
structure EnergyLine where
  epot : ℚ
  ekin : ℚ
  temp : ℚ
  etot : ℚ
  elapsedMin : ℤ
  elapsedSec : ℚ
  deriving DecidableEq, Repr

/-- `printenergy` from `caco3_MD.py`: the external energy getters
`a.get_potential_energy()` / `a.get_kinetic_energy()` enter as the totals
`Epot`/`Ekin` and `len(a)` as `n`; the body computes `epot = Epot / n`,
`ekin = Ekin / n`, `divmod(elapsed_time, 60)`, and prints
`Epot`, `Ekin`, `ekin / (1.5 * units.kB)` as the temperature,
`epot + ekin` as the total energy, and `int(elapsed_min)` with
`elapsed_sec`.  `kB` is `ase.units.kB`. -/
def printenergy (Epot Ekin : ℚ) (n : Nat) (kB : ℚ) (elapsed : ℚ) : EnergyLine :=
  let epot := Epot / n
  let ekin := Ekin / n
  let elapsed_min : ℤ := ⌊elapsed / 60⌋
  let elapsed_sec : ℚ := elapsed - 60 * elapsed_min
  { epot := epot, ekin := ekin, temp := ekin / (1.5 * kB),
    etot := epot + ekin, elapsedMin := elapsed_min, elapsedSec := elapsed_sec }

/-- C5: every diagnostics line carries exactly the four quantities
potential energy per atom, kinetic energy per atom, instantaneous
temperature, and total energy per atom (plus elapsed minutes/seconds),
where the temperature satisfies the equipartition relation
`T = (2/3) · ekin / kB` and the total energy is the sum of the potential
and kinetic energies per atom. -/
theorem printenergy_line_contents (Epot Ekin : ℚ) (n : Nat) (kB elapsed : ℚ) :
    (printenergy Epot Ekin n kB elapsed).epot = Epot / n ∧
    (printenergy Epot Ekin n kB elapsed).ekin = Ekin / n ∧
    (printenergy Epot Ekin n kB elapsed).temp
      = (2 / 3) * (printenergy Epot Ekin n kB elapsed).ekin / kB ∧
    (printenergy Epot Ekin n kB elapsed).etot
      = (printenergy Epot Ekin n kB elapsed).epot
        + (printenergy Epot Ekin n kB elapsed).ekin := by
  refine ⟨rfl, rfl, ?_, rfl⟩
  show Ekin / n / (1.5 * kB) = 2 / 3 * (Ekin / n) / kB
  rw [show (1.5 : ℚ) * kB = kB * (3 / 2) by ring, ← div_div]
  rw [div_div_eq_mul_div, div_div]
  ring_nf

/-! ## Batch evaluation script (model_evaulation.py)

The script parses one positional argument `training_set_sizes` with
`type=int, nargs="+"`, then for each size calls
`eval_mace(configs=..., model=..., output=...)` with f-string paths; only
the model and output templates interpolate the size. -/

/-- The configs (dataset) path passed on every iteration: the f-string on
the `configs=` line contains no placeholder, so it is one fixed
validation-set path. -/
def validationSetPath : String :=
  "/home/jh2536/rds/hpc-work/training_val_sets/validation_set_100_revPBE_D3.xyz"

/-- The `model=` f-string, interpolating the training-set size. -/
def modelPath (n : Int) : String :=
  "/home/jh2536/scratch_mace/models/MACE_model_scratch_newE0s_revPBE_D3_"
    ++ toString n ++ "_stagetwo.model"

/-- The `output=` f-string, interpolating the training-set size. -/
def outputPath (n : Int) : String :=
  "/home/jh2536/scratch_mace/evaluation/outputs_eval/scratch_newE0s_revPBE_D3_"
    ++ toString n ++ "_eval_test.xyz"

/-- One evaluation request as received by the external
`mace.cli.eval_configs.main` entry point. -/
structure EvalCall where
  configs : String
  model : String
  output : String
  deriving DecidableEq, Repr

/-- `eval_mace(configs, model, output)` (lines 5-7 of
`model_evaulation.py`): assigns
`sys.argv = ["program", "--configs", configs, "--model", model, "--output",
output]` and calls the external entry point, which reads `sys.argv`.
Embedded with explicit state passing for the global `sys.argv`: the first
component of the result is `sys.argv` after the call returns (the
assignment is never undone), the second is the request the entry point
receives. -/
def eval_mace (argv : List String) (configs model output : String) :
    List String × EvalCall :=
  (["program", "--configs", configs, "--model", model, "--output", output],
   ⟨configs, model, output⟩)

/-- The evaluation request built for one training-set size in the loop body
(the enabled test-set branch; the training-set branch is commented out). -/
def evalCallFor (n : Int) : EvalCall :=
  ⟨validationSetPath, modelPath n, outputPath n⟩

/-! ### Argument parsing (lines 9-11) -/

/-- Whether a command-line token is an integer literal accepted by Python's
`int` as `argparse` applies it here: an optional sign followed by one or
more digits (Python's `int` additionally strips whitespace and allows
underscore separators; the tokens of interest contain neither). -/
def isIntLiteral (s : String) : Bool :=
  match s.data with
  | [] => false
  | '-' :: rest => !rest.isEmpty && rest.all Char.isDigit
  | '+' :: rest => !rest.isEmpty && rest.all Char.isDigit
  | l => l.all Char.isDigit

/-- Numeric value of a digit string. -/
def digitsVal (l : List Char) : Nat :=
  l.foldl (fun acc c => acc * 10 + (c.toNat - '0'.toNat)) 0

/-- Integer value of a signed digit string. -/
def intValOf (s : String) : Int :=
  match s.data with
  | '-' :: rest => -(digitsVal rest : Int)
  | '+' :: rest => (digitsVal rest : Int)
  | l => (digitsVal l : Int)

/-- `type=int` conversion of one token: the value when the token is an
integer literal, `none` (argparse reports "invalid int value" and exits)
otherwise.  Note positivity is not checked anywhere. -/
def parseIntToken (s : String) : Option Int :=
  if isIntLiteral s then some (intValOf s) else none

/-- `int`-conversion of every token; `none` as soon as one fails. -/
def parseTokens : List String → Option (List Int)
  | [] => some []
  | a :: rest =>
    match parseIntToken a, parseTokens rest with
    | some n, some ns => some (n :: ns)
    | _, _ => none

/-- The two ways `argparse` exits with a usage error (status 2) here. -/
inductive ParseError where
  /-- `nargs="+"` with no tokens supplied. -/
  | missingArguments
  /-- some token is not an integer literal. -/
  | invalidIntValue
  deriving DecidableEq, Repr

/-- `parser.parse_args()` for the single positional `training_set_sizes`
with `type=int, nargs="+"` (lines 9-11): at least one token is required and
every token is converted by `int`. -/
def parseArgs (argv : List String) : Except ParseError (List Int) :=
  match argv with
  | [] => .error .missingArguments
  | _ :: _ =>
    match parseTokens argv with
    | some ns => .ok ns
    | none => .error .invalidIntValue

/-! ### The evaluation loop (lines 13-28) -/

/-- Failure of the external evaluation entry point (an exception raised by
`mace_eval_configs_main`). -/
inductive EvalError where
  | evaluationFailed
  deriving DecidableEq, Repr

/-- The `for training_set_size in args.training_set_sizes` loop: each size
produces one `eval_mace` call; an exception from the external entry point
(outcome oracle `f`) propagates out of the loop uncaught, aborting the
remaining sizes.  Result: the calls attempted, in order, and the
propagated error if any. -/
def runLoop (f : Int → Option EvalError) :
    List Int → List EvalCall × Option EvalError
  | [] => ([], none)
  | n :: rest =>
    match f n with
    | some e => ([evalCallFor n], some e)
    | none =>
      let (calls, r) := runLoop f rest
      (evalCallFor n :: calls, r)

/-- Outcome of one run of `model_evaulation.py`. -/
inductive ScriptResult where
  /-- `argparse` rejected the command line and exited with status 2. -/
  | usageError (e : ParseError)
  /-- the loop ran; `err = some e` means an evaluation raised and the
  exception propagated uncaught (nonzero process exit), `none` means normal
  completion (exit 0). -/
  | run (calls : List EvalCall) (err : Option EvalError)
  deriving DecidableEq, Repr

/-- The whole script: parse the command line, then run the loop. -/
def runScript (argv : List String) (f : Int → Option EvalError) :
    ScriptResult :=
  match parseArgs argv with
  | .error e => .usageError e
  | .ok sizes =>
    let (calls, r) := runLoop f sizes
    .run calls r

/-- C6: invoked with training sizes `[10, 20]` (and every evaluation
succeeding), the script performs exactly two evaluation invocations, the
first with an output path containing `"10"` and the second with an output
path containing `"20"`, in that order. -/
theorem batch_two_sizes_two_calls :
    runScript ["10", "20"] (fun _ => none)
      = .run [evalCallFor 10, evalCallFor 20] none ∧
    [evalCallFor 10, evalCallFor 20].length = 2 ∧
    (evalCallFor 10).output
      = "/home/jh2536/scratch_mace/evaluation/outputs_eval/scratch_newE0s_revPBE_D3_"
        ++ "10" ++ "_eval_test.xyz" ∧
    (evalCallFor 20).output
      = "/home/jh2536/scratch_mace/evaluation/outputs_eval/scratch_newE0s_revPBE_D3_"
        ++ "20" ++ "_eval_test.xyz" := by
  refine ⟨?_, rfl, ?_, ?_⟩ <;> decide

theorem parseTokens_isSome_eq (l : List String) :
    (parseTokens l).isSome = l.all isIntLiteral := by
  induction l with
  | nil => rfl
  | cons a tl ih =>
    simp only [List.all_cons]
    by_cases h : isIntLiteral a
    · cases htl : parseTokens tl with
      | none =>
        rw [htl] at ih
        simp [parseTokens, parseIntToken, h, htl, ← ih]
      | some ns =>
        rw [htl] at ih
        simp [parseTokens, parseIntToken, h, htl, ← ih]
    · simp [parseTokens, parseIntToken, h]

/-- Counterexample to C7: the tokens `"0"` and `"-5"` are not positive
integers, yet argument parsing accepts them (Python's `int` conversion
checks integrality, not positivity). -/
theorem parseArgs_accepts_nonpositive_cex :
    parseArgs ["0", "-5"] = .ok [0, -5] := by rfl

/-- C7 as amended: the script accepts as positional arguments exactly
non-empty lists of integer literals — positive or not: parsing succeeds
for every non-empty list of (optionally signed) integer tokens, including
zero and negative values, and fails exactly on an empty argument list or a
non-integer token.  Positivity is never enforced. -/
theorem parseArgs_ok_iff (argv : List String) :
    (∃ ns, parseArgs argv = .ok ns) ↔
      (argv ≠ [] ∧ argv.all isIntLiteral = true) := by
  cases argv with
  | nil =>
    constructor
    · rintro ⟨ns, h⟩
      exact absurd h (by simp [parseArgs])
    · rintro ⟨h, -⟩
      exact absurd rfl h
  | cons a tl =>
    have hs := parseTokens_isSome_eq (a :: tl)
    constructor
    · rintro ⟨ns, h⟩
      refine ⟨by simp, ?_⟩
      cases htl : parseTokens (a :: tl) with
      | none => simp [parseArgs, htl] at h
      | some ms => rw [htl] at hs; simpa using hs.symm
    · rintro ⟨-, hall⟩
      rw [hall] at hs
      cases htl : parseTokens (a :: tl) with
      | none => rw [htl] at hs; simp at hs
      | some ms => exact ⟨ms, by simp [parseArgs, htl]⟩

/-- Counterexample to C8: with command line `["10"]` — argument parsing
succeeding in both runs — the script's outcome still differs between an
evaluator that fails and one that succeeds, so the exit status does not
depend only on whether parsing succeeded. -/
theorem runScript_outcome_depends_on_eval_cex :
    parseArgs ["10"] = .ok [10] ∧
    runScript ["10"] (fun _ => some .evaluationFailed)
      ≠ runScript ["10"] (fun _ => none) := by
  refine ⟨by rfl, by decide⟩

/-- C8 as amended: the script installs no handler around the loop — an
error raised by the external evaluation entry point propagates uncaught out
of the loop (surfacing as a nonzero process exit) and the remaining sizes
are not attempted, while a run whose evaluations all succeed performs one
call per size and terminates normally; so the outcome reflects parsing
success and any propagated evaluation failure, with no per-size recovery. -/
theorem runLoop_propagates_eval_errors (f : Int → Option EvalError)
    (pre post : List Int) (n : Int) (e : EvalError)
    (hpre : ∀ m ∈ pre, f m = none) (hn : f n = some e) :
    runLoop f (pre ++ n :: post)
      = (pre.map evalCallFor ++ [evalCallFor n], some e) ∧
    ∀ sizes : List Int, (∀ m ∈ sizes, f m = none) →
      runLoop f sizes = (sizes.map evalCallFor, none) := by
  have hok : ∀ sizes : List Int, (∀ m ∈ sizes, f m = none) →
      runLoop f sizes = (sizes.map evalCallFor, none) := by
    intro sizes
    induction sizes with
    | nil => intro _; rfl
    | cons a tl ih =>
      intro h
      have ha : f a = none := h a (by simp)
      have htl := ih (fun m hm => h m (by simp [hm]))
      simp [runLoop, ha, htl]
  refine ⟨?_, hok⟩
  induction pre with
  | nil => simp [runLoop, hn]
  | cons a tl ih =>
    have ha : f a = none := hpre a (by simp)
    have htl := ih (fun m hm => hpre m (by simp [hm]))
    simp [runLoop, ha, htl]

/-- Witness for C8's amended theorem: evaluator failing exactly at size 2,
run on sizes `[1, 2, 3]` — the call for 3 is never made. -/
theorem runLoop_propagates_eval_errors_witness :
    (∀ m ∈ [(1 : Int)], (fun k : Int =>
        if k = 2 then some EvalError.evaluationFailed else none) m = none) ∧
    (fun k : Int =>
        if k = 2 then some EvalError.evaluationFailed else none) 2
      = some EvalError.evaluationFailed ∧
    runLoop (fun k : Int =>
        if k = 2 then some EvalError.evaluationFailed else none)
        ([1] ++ 2 :: [3])
      = ([evalCallFor 1, evalCallFor 2], some .evaluationFailed) := by
  refine ⟨by decide, by decide, ?_⟩
  have h := runLoop_propagates_eval_errors
    (fun k : Int => if k = 2 then some EvalError.evaluationFailed else none)
    [1] [3] 2 .evaluationFailed (by decide) (by decide)
  exact h.1

/-- Counterexample to C9: the argument vector `eval_mace` installs into
`sys.argv` has seven elements, not five. -/
theorem eval_mace_argv_length_cex :
    ((eval_mace ["orig"] "c" "m" "o").1).length = 7 ∧
    ((eval_mace ["orig"] "c" "m" "o").1).length ≠ 5 := by decide

/-- C9 as amended: every call to `eval_mace` replaces the global `sys.argv`
with the seven-element vector `["program", "--configs", configs, "--model",
model, "--output", output]` and never restores the original value — the
result is independent of the previous `sys.argv`, which remains
unobservable through `sys.argv` afterwards, and `sys.argv` is unchanged by
the call only in the degenerate case where it already equalled the
installed vector. -/
theorem eval_mace_clobbers_sys_argv (argv argv' : List String)
    (c m o : String) :
    (eval_mace argv c m o).1
      = ["program", "--configs", c, "--model", m, "--output", o] ∧
    (eval_mace argv c m o).1.length = 7 ∧
    (eval_mace argv c m o).1 = (eval_mace argv' c m o).1 ∧
    ((eval_mace argv c m o).1 = argv ↔
      argv = ["program", "--configs", c, "--model", m, "--output", o]) := by
  refine ⟨rfl, rfl, rfl, ?_⟩
  constructor
  · intro h; exact h.symm
  · intro h; exact h.symm

/-- C10: the configs (dataset) path handed to the evaluation entry point is
the same fixed validation-set path for every training-set size, while the
model path and the output path do vary with the size (shown at sizes 10 and
20). -/
theorem evalCall_configs_fixed (n m : Int) :
    (evalCallFor n).configs = validationSetPath ∧
    (evalCallFor n).configs = (evalCallFor m).configs ∧
    (evalCallFor 10).model ≠ (evalCallFor 20).model ∧
    (evalCallFor 10).output ≠ (evalCallFor 20).output := by
  refine ⟨rfl, rfl, by decide, by decide⟩

end WAMaceFT
